import Mathlib

/-!
Verification development for the awesome-cc repository.

The installer subsystem (`src/awesome_cc/installer.py`, `discovery.py`,
`cli.py`, `models.py`) is embedded shallowly: filesystem state is an explicit
finite map from paths to nodes, Python exceptions become `Except` values, and
the `shutil` / `pathlib` primitives used by the code are modelled as atomic
operations on that state.  The Telegram notification script
(`skills/telegram-notify/telegram-notify.py`) is embedded as pure string
functions.
-/

namespace AwesomeCC

/-! ## Filesystem model

A path is a list of components.  The filesystem is a finite association list
from paths to nodes together with a set of locked paths: an operation that
would create, overwrite or remove a locked path raises `PermissionError`,
modelling OS-level permission failures.  Operations are atomic in the model.
-/

abbrev FPath := List String

/-- Renders a path the way Python `str(Path(...))` appears in error messages. -/
def pathStr (p : FPath) : String := String.intercalate "/" p

/-- Final component of a path, as a (length ≤ 1) path; models `Path.name`. -/
def basename (p : FPath) : FPath := p.drop (p.length - 1)

inductive FsNode where
  | file (content : String)
  | dir
deriving DecidableEq, Repr

structure Fs where
  entries : List (FPath × FsNode)
  readOnly : List FPath
deriving DecidableEq, Repr

def Fs.get (fs : Fs) (p : FPath) : Option FsNode :=
  (fs.entries.find? (fun e => e.1 == p)).map (fun e => e.2)

/-- Models `Path.exists()`: true for a file or a directory. -/
def Fs.pathExists (fs : Fs) (p : FPath) : Bool := (fs.get p).isSome

def Fs.locked (fs : Fs) (p : FPath) : Bool := fs.readOnly.contains p

/-- Exceptions raised by the modelled filesystem primitives. -/
inductive FsError where
  | permissionDenied
  | notFound
  | isADirectory
  | notADirectory
  | fileExists
  | destExists
deriving DecidableEq, Repr

/-- Message carried by `str(e)` for exceptions the code reports generically. -/
def fsErrorMsg : FsError → String
  | .permissionDenied => "PermissionError"
  | .notFound => "FileNotFoundError"
  | .isADirectory => "IsADirectoryError"
  | .notADirectory => "NotADirectoryError"
  | .fileExists => "FileExistsError"
  | .destExists => "FileExistsError"

/-- Sets `p` to a file with content `c`, replacing any previous entry. -/
def Fs.setFile (fs : Fs) (p : FPath) (c : String) : Fs :=
  ⟨(p, .file c) :: fs.entries.filter (fun e => !(e.1 == p)), fs.readOnly⟩

/-- Models `shutil.copy2(src, dst)`: copies a single file; when `dst` is an
existing directory the file is copied to `dst/basename(src)`. -/
def Fs.copy2 (fs : Fs) (src dst : FPath) : Except FsError Fs :=
  match fs.get src with
  | some (.file c) =>
      match fs.get dst with
      | some .dir =>
          let dst2 := dst ++ basename src
          if fs.locked dst2 then .error .permissionDenied
          else if fs.get dst2 == some FsNode.dir then .error .isADirectory
          else .ok (fs.setFile dst2 c)
      | _ =>
          if fs.locked dst then .error .permissionDenied
          else .ok (fs.setFile dst c)
  | some .dir => .error .isADirectory
  | none => .error .notFound

/-- Models `shutil.rmtree(p)`: removes the directory `p` and everything
below it. -/
def Fs.rmtree (fs : Fs) (p : FPath) : Except FsError Fs :=
  match fs.get p with
  | none => .error .notFound
  | some (.file _) => .error .notADirectory
  | some .dir =>
      if fs.readOnly.any (fun q => p.isPrefixOf q) then .error .permissionDenied
      else .ok ⟨fs.entries.filter (fun e => !(p.isPrefixOf e.1)), fs.readOnly⟩

/-- Models `Path.unlink()`: removes a single file. -/
def Fs.unlink (fs : Fs) (p : FPath) : Except FsError Fs :=
  match fs.get p with
  | none => .error .notFound
  | some .dir => .error .isADirectory
  | some (.file _) =>
      if fs.locked p then .error .permissionDenied
      else .ok ⟨fs.entries.filter (fun e => !(e.1 == p)), fs.readOnly⟩

/-- Models `shutil.copytree(src, dst, symlinks=False, copy_function=copy2)`:
copies the whole tree below `src` to `dst`; `dst` must not exist yet. -/
def Fs.copytree (fs : Fs) (src dst : FPath) : Except FsError Fs :=
  match fs.get src with
  | some .dir =>
      if fs.pathExists dst then .error .destExists
      else if fs.locked dst then .error .permissionDenied
      else
        .ok ⟨fs.entries.filterMap
              (fun e => if src.isPrefixOf e.1
                        then some (dst ++ e.1.drop src.length, e.2) else none)
             ++ fs.entries, fs.readOnly⟩
  | some (.file _) => .error .notADirectory
  | none => .error .notFound

/-- Creates directory `p` assuming its parent exists; `exist_ok` semantics. -/
def Fs.mkdir1 (fs : Fs) (p : FPath) : Except FsError Fs :=
  match fs.get p with
  | some .dir => .ok fs
  | some (.file _) => .error .fileExists
  | none =>
      if fs.locked p then .error .permissionDenied
      else .ok ⟨(p, .dir) :: fs.entries, fs.readOnly⟩

/-- Nonempty prefixes of a path, shortest first. -/
def fpathPrefixes (p : FPath) : List FPath :=
  (List.range p.length).map (fun i => p.take (i + 1))

/-- Models `Path.mkdir(parents=True, exist_ok=True)`. -/
def Fs.mkdirp (fs : Fs) (p : FPath) : Except FsError Fs :=
  (fpathPrefixes p).foldlM Fs.mkdir1 fs

/-! ## Data models (`models.py`)

`ItemInfo` and `InstallResult` are the dataclasses of `models.py`.
`UninstallResult` is imported by `installer.py` from `models.py` but its
definition is not present under the provided sources; it is modelled after
the constructor calls in `installer.py` and the spec's `OperationResult`
(name, succeeded, skipped, optional error message), mirroring
`InstallResult`. -/

inductive ItemType where
  | command
  | skill
deriving DecidableEq, Repr

structure ItemInfo where
  name : String
  description : String
  path : FPath
  item_type : ItemType
deriving DecidableEq, Repr

structure InstallResult where
  name : String
  success : Bool
  skipped : Bool := false
  error : Option String := none
deriving DecidableEq, Repr

structure UninstallResult where
  name : String
  success : Bool
  skipped : Bool := false
  error : Option String := none
deriving DecidableEq, Repr

/-! ## Transfer engine (`installer.py`)

Each single-item operation returns the per-item result, the filesystem after
the operation, and the list of names passed to the confirmation callback
(capturing whether and how often the callback was invoked). -/

/-- Models `installer.get_target_dirs`; `home` stands for `Path.home()`. -/
def get_target_dirs (home : FPath) (agent : String) :
    Except String (FPath × FPath) :=
  if agent == "claude-code" then
    .ok (home ++ [".claude", "commands"], home ++ [".claude", "skills"])
  else if agent == "codex" then
    .ok (home ++ [".codex", "commands"], home ++ [".codex", "skills"])
  else if agent == "opencode" then
    .ok (home ++ [".opencode", "commands"], home ++ [".opencode", "skills"])
  else
    .error ("Unknown agent: " ++ agent ++
      ". Must be claude-code, codex, or opencode.")

/-- Models `installer.ensure_target_dirs`. -/
def ensure_target_dirs (fs : Fs) (commands_dir skills_dir : FPath) :
    Except FsError Fs := do
  let fs1 ← fs.mkdirp commands_dir
  fs1.mkdirp skills_dir

/-- Models `installer.install_command`. -/
def install_command (item : ItemInfo) (target_dir : FPath)
    (force dry_run : Bool) (confirm_callback : Option (String → Bool))
    (fs : Fs) : InstallResult × Fs × List String :=
  if dry_run then ({ name := item.name, success := true }, fs, [])
  else
    let target_file := target_dir ++ basename item.path
    let copyStep := fun (calls : List String) =>
      match fs.copy2 item.path target_file with
      | .ok fs2 =>
          (({ name := item.name, success := true } : InstallResult), fs2, calls)
      | .error .permissionDenied =>
          (({ name := item.name, success := false,
              error := some ("Permission denied: " ++ pathStr target_file) } :
            InstallResult), fs, calls)
      | .error e =>
          (({ name := item.name, success := false,
              error := some (fsErrorMsg e) } : InstallResult), fs, calls)
    if fs.pathExists target_file && !force then
      match confirm_callback with
      | some cb =>
          if cb item.name then copyStep [item.name]
          else
            (({ name := item.name, success := true, skipped := true } :
              InstallResult), fs, [item.name])
      | none => copyStep []
    else copyStep []

/-- Models `installer.install_skill`.  The `try` block first removes an
existing destination directory and then copies the source tree; when the
copy fails after the removal, the removal persists, as in the source. -/
def install_skill (item : ItemInfo) (target_dir : FPath)
    (force dry_run : Bool) (confirm_callback : Option (String → Bool))
    (fs : Fs) : InstallResult × Fs × List String :=
  if dry_run then ({ name := item.name, success := true }, fs, [])
  else
    let target_path := target_dir ++ basename item.path
    let errResult := fun (e : FsError) =>
      match e with
      | .permissionDenied =>
          ({ name := item.name, success := false,
             error := some ("Permission denied: " ++ pathStr target_path) } :
           InstallResult)
      | e =>
          ({ name := item.name, success := false,
             error := some (fsErrorMsg e) } : InstallResult)
    let copyStep := fun (calls : List String) =>
      match (if fs.pathExists target_path then fs.rmtree target_path
             else .ok fs : Except FsError Fs) with
      | .error e => (errResult e, fs, calls)
      | .ok fs1 =>
          match fs1.copytree item.path target_path with
          | .ok fs2 =>
              (({ name := item.name, success := true } : InstallResult),
               fs2, calls)
          | .error e => (errResult e, fs1, calls)
    if fs.pathExists target_path && !force then
      match confirm_callback with
      | some cb =>
          if cb item.name then copyStep [item.name]
          else
            (({ name := item.name, success := true, skipped := true } :
              InstallResult), fs, [item.name])
      | none => copyStep []
    else copyStep []

/-- Models `installer.uninstall_command`. -/
def uninstall_command (item : ItemInfo) (dry_run : Bool) (fs : Fs) :
    UninstallResult × Fs :=
  if dry_run then ({ name := item.name, success := true }, fs)
  else
    match fs.unlink item.path with
    | .ok fs2 => ({ name := item.name, success := true }, fs2)
    | .error .notFound =>
        ({ name := item.name, success := false,
           error := some ("File not found: " ++ pathStr item.path) }, fs)
    | .error .permissionDenied =>
        ({ name := item.name, success := false,
           error := some ("Permission denied: " ++ pathStr item.path) }, fs)
    | .error e =>
        ({ name := item.name, success := false,
           error := some (fsErrorMsg e) }, fs)

/-- Models `installer.uninstall_skill`. -/
def uninstall_skill (item : ItemInfo) (dry_run : Bool) (fs : Fs) :
    UninstallResult × Fs :=
  if dry_run then ({ name := item.name, success := true }, fs)
  else
    match fs.rmtree item.path with
    | .ok fs2 => ({ name := item.name, success := true }, fs2)
    | .error .notFound =>
        ({ name := item.name, success := false,
           error := some ("Directory not found: " ++ pathStr item.path) }, fs)
    | .error .permissionDenied =>
        ({ name := item.name, success := false,
           error := some ("Permission denied: " ++ pathStr item.path) }, fs)
    | .error e =>
        ({ name := item.name, success := false,
           error := some (fsErrorMsg e) }, fs)

/-- One loop of `installer.install_items`, for either item kind. -/
def installBatch (op : ItemInfo → FPath → Bool → Bool →
      Option (String → Bool) → Fs → InstallResult × Fs × List String)
    (dir : FPath) (force dry_run : Bool)
    (confirm_callback : Option (String → Bool)) :
    List ItemInfo → Fs → List InstallResult × Fs
  | [], fs => ([], fs)
  | item :: rest, fs =>
      let out := op item dir force dry_run confirm_callback fs
      let tail := installBatch op dir force dry_run confirm_callback rest out.2.1
      (out.1 :: tail.1, tail.2)

/-- Models `installer.install_items`.  A `mkdir` failure in
`ensure_target_dirs` is not caught by the source and escapes as an
exception, hence the `Except` result. -/
def install_items (commands skills : List ItemInfo)
    (commands_dir skills_dir : FPath) (force dry_run : Bool)
    (confirm_callback : Option (String → Bool)) (fs : Fs) :
    Except FsError (List InstallResult × List InstallResult × Fs) := do
  let fs0 ← if dry_run then pure fs
            else ensure_target_dirs fs commands_dir skills_dir
  let cmdOut := installBatch install_command commands_dir force dry_run
      confirm_callback commands fs0
  let skOut := installBatch install_skill skills_dir force dry_run
      confirm_callback skills cmdOut.2
  pure (cmdOut.1, skOut.1, skOut.2)

/-- One loop of `installer.uninstall_items`, for either item kind. -/
def uninstallBatch (op : ItemInfo → Bool → Fs → UninstallResult × Fs)
    (dry_run : Bool) : List ItemInfo → Fs → List UninstallResult × Fs
  | [], fs => ([], fs)
  | item :: rest, fs =>
      let out := op item dry_run fs
      let tail := uninstallBatch op dry_run rest out.2
      (out.1 :: tail.1, tail.2)

/-- Models `installer.uninstall_items`. -/
def uninstall_items (commands skills : List ItemInfo) (dry_run : Bool)
    (fs : Fs) : List UninstallResult × List UninstallResult × Fs :=
  let cmdOut := uninstallBatch uninstall_command dry_run commands fs
  let skOut := uninstallBatch uninstall_skill dry_run skills cmdOut.2
  (cmdOut.1, skOut.1, skOut.2)

/-! ## Discovery (`discovery.py`)

Discovery reads a directory listing and parses YAML frontmatter.  The
directory listing is passed explicitly (the model of what `glob` /
`iterdir` / `read_text` observe: a filename together with the file content,
`none` when `read_text` raises).  The external PyYAML library is modelled
as an oracle parameter `yamlLoad`: `.error` stands for a raised
`yaml.YAMLError`, and the returned value is a string-keyed mapping, a
non-mapping scalar, or `None`, which covers the shapes the code consumes. -/

inductive PyVal where
  | pydict (kvs : List (String × String))
  | pystr (s : String)
  | pynone
deriving DecidableEq, Repr

abbrev YamlOracle := String → Except Unit PyVal

/-- Python truthiness of a `PyVal` (empty dict, empty string, `None` are
falsy). -/
def pyTruthy : PyVal → Bool
  | .pydict kvs => !kvs.isEmpty
  | .pystr s => !(s == "")
  | .pynone => false

/-- Models the `or {}` in `parse_frontmatter`. -/
def pyOrEmpty (v : PyVal) : PyVal := if pyTruthy v then v else .pydict []

/-- Models `d.get(key, dflt)`; on a non-mapping value the attribute access
raises (`AttributeError`), modelled as `.error`. -/
def pyGet (v : PyVal) (key dflt : String) : Except Unit String :=
  match v with
  | .pydict kvs =>
      .ok (((kvs.find? (fun e => e.1 == key)).map (fun e => e.2)).getD dflt)
  | _ => .error ()

/-- Characters matched by the regex class `\s` (ASCII range). -/
def pySpace (c : Char) : Bool :=
  c == ' ' || c == '\t' || c == '\n' || c == '\r' || c == '\x0b' || c == '\x0c'

/-- Length of the maximal leading run of `\s` characters. -/
def countLeadingSpace : List Char → Nat
  | [] => 0
  | c :: rest => if pySpace c then countLeadingSpace rest + 1 else 0

/-- Earliest index at which the four characters of a newline followed by
three dashes begin, the closing delimiter sought by the lazy group. -/
def findNlDashes : List Char → Option Nat
  | [] => none
  | c :: rest =>
      match c, rest with
      | '\n', '-' :: '-' :: '-' :: _ => some 0
      | _, _ => (findNlDashes rest).map (fun i => i + 1)

/-- Attempts the frontmatter match with the star of the regex consuming
exactly `k` characters: position `k` must hold the newline, and the lazy
group then ends at the earliest closing delimiter. -/
def fmGroupAt (rest : List Char) (k : Nat) : Option (List Char) :=
  match rest.get? k with
  | some '\n' =>
      match findNlDashes (rest.drop (k + 1)) with
      | some i => some ((rest.drop (k + 1)).take i)
      | none => none
  | _ => none

/-- Backtracking order of the greedy `\s*`: longest consumption first. -/
def fmSearch (rest : List Char) : Nat → Option (List Char)
  | 0 => fmGroupAt rest 0
  | k + 1 =>
      match fmGroupAt rest (k + 1) with
      | some g => some g
      | none => fmSearch rest k

/-- Models the regex match in `parse_frontmatter`: three dashes at the very
start, then whitespace up to a newline, then the lazily captured block up
to a newline followed by three dashes. -/
def extractFrontmatterBlock (content : String) : Option String :=
  match content.data with
  | '-' :: '-' :: '-' :: rest =>
      (fmSearch rest (countLeadingSpace rest)).map (fun l => String.mk l)
  | _ => none

/-- Models `discovery.parse_frontmatter`. -/
def parse_frontmatter (yamlLoad : YamlOracle) (content : String) : PyVal :=
  match extractFrontmatterBlock content with
  | some block =>
      match yamlLoad block with
      | .ok v => pyOrEmpty v
      | .error _ => .pydict []
  | none => .pydict []

/-- One file of a commands directory listing; `content = none` models a
file whose `read_text` raises. -/
structure CmdFile where
  filename : String
  content : Option String
deriving DecidableEq, Repr

/-- True when the filename ends with the three characters of the `.md`
suffix — the `fnmatch` meaning of the pattern `*.md` (`*` also matches an
empty or dot-initial remainder). -/
def isMdName (s : String) : Bool :=
  match s.data.reverse with
  | 'd' :: 'm' :: '.' :: _ => true
  | _ => false

/-- Models `pathlib.Path.glob("*.md")`: every file whose name ends in
`.md`; pathlib glob does not skip dot-initial filenames. -/
def globMd (listing : List CmdFile) : List CmdFile :=
  listing.filter (fun f => isMdName f.filename)

/-- Splits a reversed character list at its first dot, i.e. a name at its
last dot: returns the reversed characters after that dot and the reversed
characters before it. -/
def stemRevSplit : List Char → Option (List Char × List Char)
  | [] => none
  | '.' :: rest => some ([], rest)
  | c :: rest => (stemRevSplit rest).map (fun p => (c :: p.1, p.2))

/-- Models `Path.stem`: the name without its last suffix.  A suffix needs
at least one character before its dot and one after it, so names such as
`.md` or `foo.` are their own stem. -/
def mdStem (s : String) : String :=
  match stemRevSplit s.data.reverse with
  | some (pre, post) =>
      if pre ≠ [] ∧ post ≠ [] then String.mk post.reverse else s
  | none => s

/-- Ordering used by `sorted(...)` on command files: by filename. -/
def fileLe (a b : CmdFile) : Prop := a.filename ≤ b.filename

instance : DecidableRel fileLe := fun a b =>
  inferInstanceAs (Decidable (a.filename ≤ b.filename))

/-- Models `sorted(...)` over the globbed files (stable insertion sort by
filename, matching lexicographic path order inside one directory). -/
def sortFiles (l : List CmdFile) : List CmdFile := List.insertionSort fileLe l

/-- Loop body of `discover_commands` for one candidate file; `none` models
`continue` (either an unreadable file or an exception from the attribute
access on a non-mapping frontmatter, both caught by the bare `except`). -/
def processCmdFile (yamlLoad : YamlOracle) (cmdDir : FPath) (f : CmdFile) :
    Option ItemInfo :=
  match f.content with
  | none => none
  | some content =>
      let fm := parse_frontmatter yamlLoad content
      match pyGet fm "name" (mdStem f.filename) with
      | .error _ => none
      | .ok name =>
          match pyGet fm "description" "No description available" with
          | .error _ => none
          | .ok description =>
              some { name, description, path := cmdDir ++ [f.filename],
                     item_type := .command }

/-- Models `discovery.discover_commands` on the listing of
`base_path/commands`.  The same body also models
`discovery.discover_installed_commands` on a target directory listing. -/
def discover_commands (yamlLoad : YamlOracle) (cmdDir : FPath)
    (listing : List CmdFile) : List ItemInfo :=
  (sortFiles (globMd listing)).filterMap (processCmdFile yamlLoad cmdDir)

/-- One entry of a skills directory listing as observed by `iterdir`. -/
structure SkillEntry where
  name : String
  isDir : Bool
  hasSkillMd : Bool
  skillMdContent : Option String
deriving DecidableEq, Repr

/-- Ordering used by `sorted(skills_dir.iterdir())`: by entry name. -/
def skillLe (a b : SkillEntry) : Prop := a.name ≤ b.name

instance : DecidableRel skillLe := fun a b =>
  inferInstanceAs (Decidable (a.name ≤ b.name))

/-- Models `sorted(...)` over the directory entries. -/
def sortSkills (l : List SkillEntry) : List SkillEntry :=
  List.insertionSort skillLe l

/-- Loop body of `discover_skills` for one directory entry. -/
def processSkillEntry (yamlLoad : YamlOracle) (skillsDir : FPath)
    (e : SkillEntry) : Option ItemInfo :=
  if !e.isDir then none
  else if !e.hasSkillMd then none
  else
    match e.skillMdContent with
    | none => none
    | some content =>
        let fm := parse_frontmatter yamlLoad content
        match pyGet fm "name" e.name with
        | .error _ => none
        | .ok name =>
            match pyGet fm "description" "No description available" with
            | .error _ => none
            | .ok description =>
                some { name, description, path := skillsDir ++ [e.name],
                       item_type := .skill }

/-- Models `discovery.discover_skills` on the listing of
`base_path/skills`; also `discovery.discover_installed_skills`. -/
def discover_skills (yamlLoad : YamlOracle) (skillsDir : FPath)
    (listing : List SkillEntry) : List ItemInfo :=
  (sortSkills listing).filterMap (processSkillEntry yamlLoad skillsDir)

/-- Models `discovery.get_item_by_name`. -/
def get_item_by_name (items : List ItemInfo) (name : String) :
    Option ItemInfo :=
  items.find? (fun i => i.name == name)

/-- Models `discovery.validate_names`. -/
def validate_names (requested : List String) (available : List ItemInfo) :
    List String × List String :=
  let available_names := available.map (fun i => i.name)
  (requested.filter (fun n => available_names.contains n),
   requested.filter (fun n => !(available_names.contains n)))

/-! ## Telegram notification script (`telegram-notify.py`)

The message-building pipeline is pure string manipulation and is embedded
directly; the runtime context (agent, cwd, branch, session) and the
timestamp are parameters. -/

inductive TgStatus where
  | success
  | error
  | blocked
deriving DecidableEq, Repr

def statusIcon : TgStatus → String
  | .success => "✅"
  | .error => "❌"
  | .blocked => "⏸️"

def statusTitle : TgStatus → String
  | .success => "Task Completed"
  | .error => "Task Failed"
  | .blocked => "Waiting for Input"

/-- Models `html.escape` (default `quote=True`). -/
def escChar (c : Char) : String :=
  if c == '&' then "&amp;"
  else if c == '<' then "&lt;"
  else if c == '>' then "&gt;"
  else if c == '"' then "&quot;"
  else if c == Char.ofNat 39 then "&#x27;"
  else String.singleton c

def pyHtmlEscape (s : String) : String := String.join (s.data.map escChar)

/-- Models `truncate` from the script (default limit 4000). -/
def pyTruncate (text : String) (max_len : Nat := 4000) : String :=
  if text.length ≤ max_len then text else text.take (max_len - 3) ++ "..."

structure TgContext where
  agent : String
  pwd : String
  git_branch : String
  session_id : Option String
deriving DecidableEq, Repr

def tgSeparator : String := "━━━━━━━━━━━━━━━━━━━━"

/-- Lines assembled by `format_message` before joining and truncating. -/
def format_lines (status : TgStatus) (summary : String) (todos : List String)
    (ctx : TgContext) (timestamp : String) : List String :=
  let summary_escaped := pyHtmlEscape summary
  let todos_escaped := todos.map pyHtmlEscape
  ([statusIcon status ++ " <b>" ++ statusTitle status ++ "</b>",
    "",
    "🤖 " ++ pyHtmlEscape ctx.agent,
    "📂 <code>" ++ pyHtmlEscape ctx.pwd ++ "</code>",
    "🌿 <code>" ++ pyHtmlEscape ctx.git_branch ++ "</code>"]
   ++ (match ctx.session_id with
       | some sid => ["🆔 <code>" ++ pyHtmlEscape sid ++ "</code>"]
       | none => [])
   ++ ["", tgSeparator, "", "<b>📋 Summary</b>", summary_escaped]
   ++ (if !todos_escaped.isEmpty then
         ["", "<b>📝 Your TODOs</b>"]
           ++ (todos_escaped.take 5).map (fun t => "• " ++ t)
       else [])
   ++ ["", tgSeparator, "⏱️ " ++ timestamp])

/-- Models `"\n".join(lines)`. -/
def joinLines : List String → String
  | [] => ""
  | [l] => l
  | l :: rest => l ++ "\n" ++ joinLines rest

/-- Models `format_message`. -/
def format_message (status : TgStatus) (summary : String)
    (todos : List String) (ctx : TgContext) (timestamp : String) : String :=
  pyTruncate (joinLines (format_lines status summary todos ctx timestamp))

/-- Summary preprocessing in `main`: past 500 characters the summary is cut
to its first 497 characters plus an ellipsis. -/
def mainSummary (summary : String) : String :=
  if summary.length > 500 then String.mk (summary.data.take 497) ++ "..."
  else summary

/-- Todo-list preprocessing in `main`: at most five action items. -/
def mainTodos (todo : List String) : List String :=
  if todo.length > 5 then todo.take 5 else todo

/-- Message produced by one invocation of the script with a nonempty
summary (an empty summary exits before any message is formatted). -/
def telegramMessage (status : TgStatus) (summary : String)
    (todo : List String) (ctx : TgContext) (timestamp : String) : String :=
  format_message status (mainSummary summary) (mainTodos todo) ctx timestamp

/-! ## CLI (`cli.py`)

The `install` and `uninstall` commands are embedded as functions from the
parsed arguments to an exit code and the final filesystem.  Discovery
output is passed as an argument (the commands read it from the source tree
at startup), and the interactive prompts are oracles giving the answers
the user would type.  Display-only calls (`show_*`) have no effect on
state or exit code and are omitted.  A `typer.Exit()` is exit code 0, a
`typer.Exit(1)` is 1, and an exception escaping the command body makes the
process exit 1. -/

structure InstallArgs where
  agent : Option String
  commands : List String
  skills : List String
  commands_only : Bool
  skills_only : Bool
  all_items : Bool
  list_items : Bool
  dry_run : Bool
  yes : Bool
  force : Bool

structure UninstallArgs where
  agent : Option String
  commands : List String
  skills : List String
  commands_only : Bool
  skills_only : Bool
  all_items : Bool
  list_items : Bool
  dry_run : Bool
  yes : Bool

/-- Answers of the interactive prompts (questionary): the selections of the
two checkbox prompts and the answers of the yes/no confirmations. -/
structure CliOracles where
  interactiveCommands : List String
  interactiveSkills : List String
  confirmAnswer : Bool
  overwriteAnswer : String → Bool

/-- Python truthiness of the optional `agent` argument. -/
def truthyStr : Option String → Bool
  | none => false
  | some s => !(s == "")

structure CliOutcome where
  exitCode : Nat
  fs : Fs
  commandResults : List InstallResult
  skillResults : List InstallResult
  transferCompleted : Bool
deriving DecidableEq, Repr

structure UninstallOutcome where
  exitCode : Nat
  fs : Fs
  commandResults : List UninstallResult
  skillResults : List UninstallResult
  transferCompleted : Bool
deriving DecidableEq, Repr

/-- Everything the `install` command of `cli.py` does before the transfer
phase: validation, selection, confirmation.  `.error code` is a
`typer.Exit` with that code before any transfer; `.ok` carries the target
directories, resolved items and overwrite callback handed to
`install_items`. -/
def installPrelude (a : InstallArgs) (o : CliOracles)
    (available_commands available_skills : List ItemInfo) (home : FPath) :
    Except Nat (FPath × FPath × List ItemInfo × List ItemInfo ×
      Option (String → Bool)) :=
  if a.list_items then .error 0
  else if !truthyStr a.agent then .error 1
  else
    let agent := a.agent.getD ""
    if !(agent == "claude-code" || agent == "codex") then .error 1
    else
      match get_target_dirs home agent with
      | .error _ => .error 1
      | .ok (commands_dir, skills_dir) =>
        let selector_count :=
          (if !a.commands.isEmpty then 1 else 0) +
          (if !a.skills.isEmpty then 1 else 0) +
          (if a.commands_only then 1 else 0) +
          (if a.skills_only then 1 else 0) +
          (if a.all_items then 1 else 0)
        if a.all_items && selector_count > 1 then .error 1
        else
          let sel : Except Unit (List String × List String) :=
            if a.all_items then
              .ok (available_commands.map (fun c => c.name),
                   available_skills.map (fun s => s.name))
            else if !a.commands.isEmpty || !a.skills.isEmpty then do
              let sc ←
                if !a.commands.isEmpty then
                  let v := validate_names a.commands available_commands
                  if !v.2.isEmpty then Except.error () else Except.ok v.1
                else Except.ok []
              let ss ←
                if !a.skills.isEmpty then
                  let v := validate_names a.skills available_skills
                  if !v.2.isEmpty then Except.error () else Except.ok v.1
                else Except.ok []
              Except.ok (sc, ss)
            else
              .ok ((if !a.skills_only then o.interactiveCommands else []),
                   (if !a.commands_only then o.interactiveSkills else []))
          match sel with
          | .error _ => .error 1
          | .ok (selected_commands, selected_skills) =>
            if selected_commands.isEmpty && selected_skills.isEmpty then
              .error 0
            else
              let proceed := if a.yes then true else o.confirmAnswer
              if !proceed then .error 0
              else
                let commands_to_install :=
                  (selected_commands.map
                    (get_item_by_name available_commands)).filterMap id
                let skills_to_install :=
                  (selected_skills.map
                    (get_item_by_name available_skills)).filterMap id
                let overwrite_callback : Option (String → Bool) :=
                  if a.force || a.yes then none
                  else some (fun name =>
                    if a.yes then true else o.overwriteAnswer name)
                .ok (commands_dir, skills_dir, commands_to_install,
                     skills_to_install, overwrite_callback)

/-- Models the `install` command of `cli.py`: the prelude followed by the
transfer phase; after `install_items` returns, the command only reports
and falls off the end of the function (exit code 0). -/
def installMain (a : InstallArgs) (o : CliOracles)
    (available_commands available_skills : List ItemInfo)
    (home : FPath) (fs : Fs) : CliOutcome :=
  match installPrelude a o available_commands available_skills home with
  | .error code => ⟨code, fs, [], [], false⟩
  | .ok (commands_dir, skills_dir, cmds, sks, cb) =>
      match install_items cmds sks commands_dir skills_dir
          a.force a.dry_run cb fs with
      | .error _ => ⟨1, fs, [], [], false⟩
      | .ok (cr, sr, fs2) => ⟨0, fs2, cr, sr, true⟩

/-- Everything the `uninstall` command of `cli.py` does before the
transfer phase; `.error code` is a `typer.Exit` with that code before any
transfer, `.ok` carries the resolved items handed to `uninstall_items`. -/
def uninstallPrelude (a : UninstallArgs) (o : CliOracles)
    (installed_commands installed_skills : List ItemInfo)
    (home : FPath) : Except Nat (List ItemInfo × List ItemInfo) :=
  if !truthyStr a.agent then .error 1
  else
    let agent := a.agent.getD ""
    if !(agent == "claude-code" || agent == "codex") then .error 1
    else
      match get_target_dirs home agent with
      | .error _ => .error 1
      | .ok (_commands_dir, _skills_dir) =>
        if a.list_items then .error 0
        else
          let selector_count :=
            (if !a.commands.isEmpty then 1 else 0) +
            (if !a.skills.isEmpty then 1 else 0) +
            (if a.commands_only then 1 else 0) +
            (if a.skills_only then 1 else 0) +
            (if a.all_items then 1 else 0)
          if a.all_items && selector_count > 1 then .error 1
          else
            let sel : Except Nat (List String × List String) :=
              if a.all_items then
                .ok (installed_commands.map (fun c => c.name),
                     installed_skills.map (fun s => s.name))
              else if !a.commands.isEmpty || !a.skills.isEmpty then do
                let sc ←
                  if !a.commands.isEmpty then
                    let v := validate_names a.commands installed_commands
                    if !v.2.isEmpty then Except.error 1 else Except.ok v.1
                  else Except.ok []
                let ss ←
                  if !a.skills.isEmpty then
                    let v := validate_names a.skills installed_skills
                    if !v.2.isEmpty then Except.error 1 else Except.ok v.1
                  else Except.ok []
                Except.ok (sc, ss)
              else if installed_commands.isEmpty && installed_skills.isEmpty then
                .error 0
              else
                .ok ((if !a.skills_only then o.interactiveCommands else []),
                     (if !a.commands_only then o.interactiveSkills else []))
            match sel with
            | .error c => .error c
            | .ok (selected_commands, selected_skills) =>
              if selected_commands.isEmpty && selected_skills.isEmpty then
                .error 0
              else
                let proceed := if a.yes then true else o.confirmAnswer
                if !proceed then .error 0
                else
                  let commands_to_uninstall :=
                    (selected_commands.map
                      (get_item_by_name installed_commands)).filterMap id
                  let skills_to_uninstall :=
                    (selected_skills.map
                      (get_item_by_name installed_skills)).filterMap id
                  .ok (commands_to_uninstall, skills_to_uninstall)

/-- Models the `uninstall` command of `cli.py`: the prelude followed by
the transfer phase; after `uninstall_items` returns, the command only
reports and falls off the end of the function (exit code 0). -/
def uninstallMain (a : UninstallArgs) (o : CliOracles)
    (installed_commands installed_skills : List ItemInfo)
    (home : FPath) (fs : Fs) : UninstallOutcome :=
  match uninstallPrelude a o installed_commands installed_skills home with
  | .error code => ⟨code, fs, [], [], false⟩
  | .ok (cmds, sks) =>
      let out := uninstall_items cmds sks a.dry_run fs
      ⟨0, out.2.2, out.1, out.2.1, true⟩

/-- Filename (final path component) of a discovered item. -/
def itemFileName (it : ItemInfo) : String := (basename it.path).headI

/-- Concrete slice of PyYAML behavior: `safe_load` raises a `YAMLError` on
the unclosed bracket `[`. -/
def yamlBracketOracle : YamlOracle := fun s =>
  if s == "[" then .error () else .ok .pynone

/-- Concrete slice of PyYAML behavior: `safe_load` on `name: \x27\x27`
(a quoted empty scalar) yields the mapping from `name` to the empty
string. -/
def yamlEmptyNameOracle : YamlOracle := fun s =>
  if s == "name: \x27\x27" then .ok (.pydict [("name", "")]) else .ok .pynone

/-! ## Helper lemmas -/

theorem install_command_dry (item : ItemInfo) (td : FPath) (force : Bool)
    (cb : Option (String → Bool)) (fs : Fs) :
    install_command item td force true cb fs
      = ({ name := item.name, success := true }, fs, []) := rfl

theorem install_skill_dry (item : ItemInfo) (td : FPath) (force : Bool)
    (cb : Option (String → Bool)) (fs : Fs) :
    install_skill item td force true cb fs
      = ({ name := item.name, success := true }, fs, []) := rfl

theorem installBatch_dry (op : ItemInfo → FPath → Bool → Bool →
      Option (String → Bool) → Fs → InstallResult × Fs × List String)
    (dir : FPath) (force : Bool) (cb : Option (String → Bool))
    (items : List ItemInfo) (fs : Fs)
    (hop : ∀ item fs, op item dir force true cb fs
      = ({ name := item.name, success := true }, fs, ([] : List String))) :
    installBatch op dir force true cb items fs
      = (items.map (fun i =>
          ({ name := i.name, success := true } : InstallResult)), fs) := by
  induction items generalizing fs with
  | nil => rfl
  | cons i rest ih => simp [installBatch, hop, ih]

theorem uninstallBatch_dry (op : ItemInfo → Bool → Fs → UninstallResult × Fs)
    (items : List ItemInfo) (fs : Fs)
    (hop : ∀ item fs, op item true fs
      = ({ name := item.name, success := true }, fs)) :
    uninstallBatch op true items fs
      = (items.map (fun i =>
          ({ name := i.name, success := true } : UninstallResult)), fs) := by
  induction items generalizing fs with
  | nil => rfl
  | cons i rest ih => simp [uninstallBatch, hop, ih]

theorem uninstallBatch_length (op : ItemInfo → Bool → Fs → UninstallResult × Fs)
    (dry : Bool) (items : List ItemInfo) (fs : Fs) :
    (uninstallBatch op dry items fs).1.length = items.length := by
  induction items generalizing fs with
  | nil => rfl
  | cons i rest ih => simp [uninstallBatch, ih]

theorem basename_append (l : List String) (x : String) :
    basename (l ++ [x]) = [x] := by
  simp [basename]

theorem sortFiles_sorted (l : List CmdFile) :
    List.Sorted fileLe (sortFiles l) := by
  haveI : IsTotal CmdFile fileLe := ⟨fun a b => le_total a.filename b.filename⟩
  haveI : IsTrans CmdFile fileLe := ⟨fun a b c hab hbc => le_trans hab hbc⟩
  exact List.sorted_insertionSort fileLe l

theorem sortSkills_sorted (l : List SkillEntry) :
    List.Sorted skillLe (sortSkills l) := by
  haveI : IsTotal SkillEntry skillLe := ⟨fun a b => le_total a.name b.name⟩
  haveI : IsTrans SkillEntry skillLe := ⟨fun a b c hab hbc => le_trans hab hbc⟩
  exact List.sorted_insertionSort skillLe l

theorem filterMap_map_sublist {α β γ : Type} (f : α → Option β) (g : β → γ)
    (k : α → γ) (hf : ∀ a b, f a = some b → g b = k a) :
    ∀ l : List α, ((l.filterMap f).map g).Sublist (l.map k)
  | [] => List.Sublist.slnil
  | a :: l => by
    cases hfa : f a with
    | none =>
      simp only [List.filterMap_cons, hfa, List.map_cons]
      exact (filterMap_map_sublist f g k hf l).cons _
    | some b =>
      simp only [List.filterMap_cons, hfa, List.map_cons, hf a b hfa]
      exact (filterMap_map_sublist f g k hf l).cons₂ _

theorem mdStem_ne_empty (s : String) (hmd : isMdName s = true) :
    mdStem s ≠ "" := by
  unfold isMdName at hmd
  unfold mdStem
  split at hmd
  · rename_i c rest heq
    rw [heq]
    have hsplit : stemRevSplit ('d' :: 'm' :: '.' :: rest)
        = some (['d', 'm'], rest) := by
      simp [stemRevSplit]
    rw [hsplit]
    show (if (['d', 'm'] : List Char) ≠ [] ∧ rest ≠ [] then
        String.mk rest.reverse else s) ≠ ""
    by_cases hrest : rest = []
    · subst hrest
      rw [if_neg (by simp)]
      intro hcontra
      rw [hcontra] at heq
      simp at heq
    · rw [if_pos ⟨by simp, hrest⟩]
      intro hcontra
      have hpost : rest.reverse = [] := by
        have := congrArg String.data hcontra
        simpa using this
      exact hrest (by simpa using hpost)
  · simp at hmd

theorem processCmdFile_some (yamlO : YamlOracle) (cmdDir : FPath)
    (f : CmdFile) (it : ItemInfo)
    (h : processCmdFile yamlO cmdDir f = some it) :
    it.path = cmdDir ++ [f.filename] ∧
    ∃ content kvs, f.content = some content ∧
      parse_frontmatter yamlO content = .pydict kvs ∧
      ((∃ kv, kvs.find? (fun e => e.1 == "name") = some kv ∧
          it.name = kv.2) ∨
       (kvs.find? (fun e => e.1 == "name") = none ∧
        it.name = mdStem f.filename)) := by
  unfold processCmdFile at h
  cases hc : f.content with
  | none => rw [hc] at h; exact absurd h (by simp)
  | some content =>
    rw [hc] at h
    cases hfm : parse_frontmatter yamlO content with
    | pydict kvs =>
      cases hfind : kvs.find? (fun e => e.1 == "name") with
      | some kv =>
        simp only [hfm, pyGet, hfind, Option.map_some', Option.getD_some] at h
        obtain rfl := (Option.some.injEq _ _).mp h
        exact ⟨rfl, content, kvs, rfl, hfm, .inl ⟨kv, hfind, rfl⟩⟩
      | none =>
        simp only [hfm, pyGet, hfind, Option.map_none', Option.getD_none] at h
        obtain rfl := (Option.some.injEq _ _).mp h
        exact ⟨rfl, content, kvs, rfl, hfm, .inr ⟨hfind, rfl⟩⟩
    | pystr s => simp [pyGet, hfm] at h
    | pynone => simp [pyGet, hfm] at h

theorem processSkillEntry_some (yamlO : YamlOracle) (sdDir : FPath)
    (e : SkillEntry) (it : ItemInfo)
    (h : processSkillEntry yamlO sdDir e = some it) :
    it.path = sdDir ++ [e.name] ∧
    ∃ content kvs, e.skillMdContent = some content ∧
      parse_frontmatter yamlO content = .pydict kvs ∧
      ((∃ kv, kvs.find? (fun e2 => e2.1 == "name") = some kv ∧
          it.name = kv.2) ∨
       (kvs.find? (fun e2 => e2.1 == "name") = none ∧
        it.name = e.name)) := by
  unfold processSkillEntry at h
  cases hd : e.isDir with
  | false => rw [hd] at h; simp at h
  | true =>
    rw [hd] at h
    cases hm : e.hasSkillMd with
    | false => rw [hm] at h; simp at h
    | true =>
      rw [hm] at h
      simp only [Bool.not_true, Bool.false_eq_true, if_false] at h
      cases hc : e.skillMdContent with
      | none => rw [hc] at h; exact absurd h (by simp)
      | some content =>
        rw [hc] at h
        cases hfm : parse_frontmatter yamlO content with
        | pydict kvs =>
          cases hfind : kvs.find? (fun e2 => e2.1 == "name") with
          | some kv =>
            simp only [hfm, pyGet, hfind, Option.map_some',
              Option.getD_some] at h
            obtain rfl := (Option.some.injEq _ _).mp h
            exact ⟨rfl, content, kvs, rfl, hfm, .inl ⟨kv, hfind, rfl⟩⟩
          | none =>
            simp only [hfm, pyGet, hfind, Option.map_none',
              Option.getD_none] at h
            obtain rfl := (Option.some.injEq _ _).mp h
            exact ⟨rfl, content, kvs, rfl, hfm, .inr ⟨hfind, rfl⟩⟩
        | pystr s => simp [pyGet, hfm] at h
        | pynone => simp [pyGet, hfm] at h

theorem itemFileName_of_processCmdFile (yamlO : YamlOracle) (cmdDir : FPath)
    (f : CmdFile) (it : ItemInfo)
    (h : processCmdFile yamlO cmdDir f = some it) :
    itemFileName it = f.filename := by
  have hp := (processCmdFile_some yamlO cmdDir f it h).1
  simp [itemFileName, hp, basename_append]

theorem itemFileName_of_processSkillEntry (yamlO : YamlOracle)
    (sdDir : FPath) (e : SkillEntry) (it : ItemInfo)
    (h : processSkillEntry yamlO sdDir e = some it) :
    itemFileName it = e.name := by
  have hp := (processSkillEntry_some yamlO sdDir e it h).1
  simp [itemFileName, hp, basename_append]

/-! ## Claims -/

/-- C3: `validate_names` splits any requested list into the names present
in the available set and those absent from it; each part preserves the
relative order of the request (it is a sublist), the parts are disjoint in
membership, and their concatenation is a permutation of the request. -/
theorem validate_names_partition (requested : List String)
    (available : List ItemInfo) :
    ((validate_names requested available).1.Sublist requested ∧
     (validate_names requested available).2.Sublist requested) ∧
    (∀ n ∈ (validate_names requested available).1,
        n ∈ available.map (fun i => i.name)) ∧
    (∀ n ∈ (validate_names requested available).2,
        n ∉ available.map (fun i => i.name)) ∧
    (∀ n, ¬(n ∈ (validate_names requested available).1 ∧
            n ∈ (validate_names requested available).2)) ∧
    ((validate_names requested available).1 ++
      (validate_names requested available).2).Perm requested := by
  simp only [validate_names]
  refine ⟨⟨List.filter_sublist _, List.filter_sublist _⟩, ?_, ?_, ?_,
    List.filter_append_perm _ _⟩
  · intro n hn
    have h := List.of_mem_filter hn
    simpa using h
  · intro n hn
    have h := List.of_mem_filter hn
    simpa using h
  · rintro n ⟨h1, h2⟩
    have g1 := List.of_mem_filter h1
    have g2 := List.of_mem_filter h2
    simp only [Bool.not_eq_true'] at g2
    rw [g1] at g2
    exact absurd g2 (by simp)

/-- Witness for C3 at a concrete request and item set. -/
theorem validate_names_partition_witness :
    ((validate_names ["a", "z"] [⟨"a", "d", ["a.md"], ItemType.command⟩]).1 ++
      (validate_names ["a", "z"] [⟨"a", "d", ["a.md"], ItemType.command⟩]).2).Perm
      ["a", "z"] :=
  (validate_names_partition ["a", "z"]
    [⟨"a", "d", ["a.md"], ItemType.command⟩]).2.2.2.2

/-- C4: with `dry_run` set, every transfer operation returns the input
filesystem unchanged and reports success without a skip for every item. -/
theorem transfer_dry_run_frame (item : ItemInfo) (td : FPath) (force : Bool)
    (cb : Option (String → Bool)) (fs : Fs) (commands skills : List ItemInfo)
    (cd sd : FPath) (fs0 : Fs) :
    install_command item td force true cb fs
      = ({ name := item.name, success := true }, fs, []) ∧
    install_skill item td force true cb fs
      = ({ name := item.name, success := true }, fs, []) ∧
    uninstall_command item true fs = ({ name := item.name, success := true }, fs) ∧
    uninstall_skill item true fs = ({ name := item.name, success := true }, fs) ∧
    install_items commands skills cd sd force true cb fs0
      = .ok (commands.map (fun i =>
               ({ name := i.name, success := true } : InstallResult)),
             skills.map (fun i =>
               ({ name := i.name, success := true } : InstallResult)), fs0) ∧
    uninstall_items commands skills true fs0
      = (commands.map (fun i =>
           ({ name := i.name, success := true } : UninstallResult)),
         skills.map (fun i =>
           ({ name := i.name, success := true } : UninstallResult)), fs0) := by
  refine ⟨rfl, rfl, rfl, rfl, ?_, ?_⟩
  · simp [install_items,
      installBatch_dry install_command cd force cb commands fs0
        (fun i f => rfl),
      installBatch_dry install_skill sd force cb skills fs0
        (fun i f => rfl), pure, Except.pure, bind, Except.bind]
  · simp [uninstall_items,
      uninstallBatch_dry uninstall_command commands fs0 (fun i f => rfl),
      uninstallBatch_dry uninstall_skill skills fs0 (fun i f => rfl)]

/-- C5: with `force` unset, an existing destination and a declining
confirmation callback, installing a command or a skill reports
success-but-skipped and leaves the filesystem (hence the existing
destination) unchanged. -/
theorem install_decline_skips (item : ItemInfo) (td : FPath)
    (cb : String → Bool) (fs : Fs)
    (h1 : fs.pathExists (td ++ basename item.path) = true)
    (h2 : cb item.name = false) :
    install_command item td false false (some cb) fs
      = ({ name := item.name, success := true, skipped := true }, fs,
         [item.name]) ∧
    install_skill item td false false (some cb) fs
      = ({ name := item.name, success := true, skipped := true }, fs,
         [item.name]) := by
  constructor
  · simp [install_command, h1, h2]
  · simp [install_skill, h1, h2]

/-- Witness for C5: declining the overwrite of `t/a.md` skips and keeps
the filesystem intact. -/
theorem install_decline_skips_witness :
    install_command ⟨"a", "d", ["s", "a.md"], ItemType.command⟩ ["t"]
        false false (some (fun _ => false))
        ⟨[(["t", "a.md"], .file "OLD")], []⟩
      = ({ name := "a", success := true, skipped := true },
         ⟨[(["t", "a.md"], .file "OLD")], []⟩, ["a"]) :=
  (install_decline_skips ⟨"a", "d", ["s", "a.md"], ItemType.command⟩ ["t"]
    (fun _ => false) ⟨[(["t", "a.md"], .file "OLD")], []⟩
    (by decide) rfl).1

/-- C7: uninstalling an item whose path does not exist returns a failed
result carrying a not-found message tagged with the path, raises nothing,
and a batch still produces one result per input item. -/
theorem uninstall_missing_reports_not_found (item sk : ItemInfo)
    (fsA fsB : Fs) (hc : fsA.get item.path = none)
    (hs : fsB.get sk.path = none)
    (commands skills : List ItemInfo) (fs0 : Fs) :
    uninstall_command item false fsA
      = ({ name := item.name, success := false,
           error := some ("File not found: " ++ pathStr item.path) }, fsA) ∧
    uninstall_skill sk false fsB
      = ({ name := sk.name, success := false,
           error := some ("Directory not found: " ++ pathStr sk.path) }, fsB) ∧
    (uninstall_items commands skills false fs0).1.length = commands.length ∧
    (uninstall_items commands skills false fs0).2.1.length = skills.length := by
  refine ⟨?_, ?_, ?_, ?_⟩
  · simp [uninstall_command, Fs.unlink, hc]
  · simp [uninstall_skill, Fs.rmtree, hs]
  · simp [uninstall_items, uninstallBatch_length]
  · simp [uninstall_items, uninstallBatch_length]

/-- Witness for C7: uninstalling the absent `t/nope.md` from an empty
filesystem reports the not-found failure. -/
theorem uninstall_missing_reports_not_found_witness :
    uninstall_command ⟨"a", "d", ["t", "nope.md"], ItemType.command⟩ false
        ⟨[], []⟩
      = ({ name := "a", success := false,
           error := some "File not found: t/nope.md" }, ⟨[], []⟩) := by
  have h := (uninstall_missing_reports_not_found
    ⟨"a", "d", ["t", "nope.md"], ItemType.command⟩
    ⟨"s", "d", ["t", "nope"], ItemType.skill⟩ ⟨[], []⟩ ⟨[], []⟩
    (by decide) (by decide) [] [] ⟨[], []⟩).1
  simpa [pathStr] using h

/-- C6: with `force`, installing over an existing destination never
invokes the confirmation callback and overwrites: a command destination
file is replaced by the source content, and a skill destination directory
is first fully removed (`rmtree`) and then the source tree is copied
recursively (`copytree`). -/
theorem install_force_overwrites
    (item : ItemInfo) (td : FPath) (cb : Option (String → Bool))
    (fsA : Fs) (c : String)
    (hsrc : fsA.get item.path = some (.file c))
    (_hex : fsA.pathExists (td ++ basename item.path) = true)
    (hnd : fsA.get (td ++ basename item.path) ≠ some FsNode.dir)
    (hnl : fsA.locked (td ++ basename item.path) = false)
    (sk : ItemInfo) (td2 : FPath) (cb2 : Option (String → Bool))
    (fsB fsr fsc : Fs)
    (hex2 : fsB.pathExists (td2 ++ basename sk.path) = true)
    (hrm : fsB.rmtree (td2 ++ basename sk.path) = .ok fsr)
    (hct : fsr.copytree sk.path (td2 ++ basename sk.path) = .ok fsc) :
    (install_command item td true false cb fsA
       = ({ name := item.name, success := true },
          fsA.setFile (td ++ basename item.path) c, []) ∧
     (fsA.setFile (td ++ basename item.path) c).get (td ++ basename item.path)
       = some (.file c)) ∧
    install_skill sk td2 true false cb2 fsB
      = ({ name := sk.name, success := true }, fsc, []) := by
  have hcopy : fsA.copy2 item.path (td ++ basename item.path)
      = .ok (fsA.setFile (td ++ basename item.path) c) := by
    unfold Fs.copy2
    rw [hsrc]
    cases hd : fsA.get (td ++ basename item.path) with
    | none => simp [hnl]
    | some n =>
      cases n with
      | file s => simp [hnl]
      | dir => exact absurd hd hnd
  refine ⟨⟨?_, ?_⟩, ?_⟩
  · simp [install_command, hcopy]
  · simp [Fs.get, Fs.setFile]
  · simp [install_skill, hex2, hrm, hct]

/-- Witness for C6 on a two-file filesystem and a one-directory skill. -/
theorem install_force_overwrites_witness :
    install_skill ⟨"sk", "d", ["s", "sk"], ItemType.skill⟩ ["t"] true false
        none ⟨[(["t", "sk"], .dir), (["s", "sk"], .dir)], []⟩
      = ({ name := "sk", success := true },
         ⟨[(["t", "sk"], .dir), (["s", "sk"], .dir)], []⟩, []) :=
  (install_force_overwrites
    ⟨"a", "d", ["s", "a.md"], ItemType.command⟩ ["t"] none
    ⟨[(["s", "a.md"], .file "SRC"), (["t", "a.md"], .file "OLD")], []⟩ "SRC"
    (by decide) (by decide) (by decide) (by decide)
    ⟨"sk", "d", ["s", "sk"], ItemType.skill⟩ ["t"] none
    ⟨[(["t", "sk"], .dir), (["s", "sk"], .dir)], []⟩
    ⟨[(["s", "sk"], .dir)], []⟩
    ⟨[(["t", "sk"], .dir), (["s", "sk"], .dir)], []⟩
    (by decide) rfl rfl).2

/-- C10: with no confirmation callback, `force` unset and an existing
destination, install silently overwrites and reports success without a
skip; a skipped result can only arise from a supplied callback that
declined. -/
theorem install_none_callback_overwrites
    (item : ItemInfo) (td : FPath) (fsA : Fs) (c c0 : String)
    (hdst : fsA.get (td ++ basename item.path) = some (.file c0))
    (hsrc : fsA.get item.path = some (.file c))
    (hnl : fsA.locked (td ++ basename item.path) = false)
    (sk : ItemInfo) (td2 : FPath) (fsB fsr fsc : Fs)
    (hex2 : fsB.pathExists (td2 ++ basename sk.path) = true)
    (hrm : fsB.rmtree (td2 ++ basename sk.path) = .ok fsr)
    (hct : fsr.copytree sk.path (td2 ++ basename sk.path) = .ok fsc)
    (item2 : ItemInfo) (td3 : FPath) (force2 dry2 : Bool)
    (cb3 : Option (String → Bool)) (fsC : Fs) :
    install_command item td false false none fsA
      = ({ name := item.name, success := true },
         fsA.setFile (td ++ basename item.path) c, []) ∧
    install_skill sk td2 false false none fsB
      = ({ name := sk.name, success := true }, fsc, []) ∧
    ((install_command item2 td3 force2 dry2 cb3 fsC).1.skipped = true →
      ∃ f, cb3 = some f ∧ f item2.name = false) ∧
    ((install_skill item2 td3 force2 dry2 cb3 fsC).1.skipped = true →
      ∃ f, cb3 = some f ∧ f item2.name = false) := by
  have hcopy : fsA.copy2 item.path (td ++ basename item.path)
      = .ok (fsA.setFile (td ++ basename item.path) c) := by
    unfold Fs.copy2
    rw [hsrc, hdst]
    simp [hnl]
  refine ⟨?_, ?_, ?_, ?_⟩
  · simp [install_command, hcopy]
  · simp [install_skill, hex2, hrm, hct]
  · intro h
    simp only [install_command] at h
    repeat' split at h
    all_goals simp_all
  · intro h
    simp only [install_skill] at h
    repeat' split at h
    all_goals simp_all

/-- Witness for C10: with no callback, `t/a.md` is silently replaced by
the source content. -/
theorem install_none_callback_overwrites_witness :
    install_command ⟨"a", "d", ["s", "a.md"], ItemType.command⟩ ["t"]
        false false none
        ⟨[(["s", "a.md"], .file "SRC"), (["t", "a.md"], .file "OLD")], []⟩
      = ({ name := "a", success := true },
         ⟨[(["t", "a.md"], .file "SRC"), (["s", "a.md"], .file "SRC")], []⟩,
         []) :=
  (install_none_callback_overwrites
    ⟨"a", "d", ["s", "a.md"], ItemType.command⟩ ["t"]
    ⟨[(["s", "a.md"], .file "SRC"), (["t", "a.md"], .file "OLD")], []⟩
    "SRC" "OLD" (by decide) (by decide) (by decide)
    ⟨"sk", "d", ["s", "sk"], ItemType.skill⟩ ["t"]
    ⟨[(["t", "sk"], .dir), (["s", "sk"], .dir)], []⟩
    ⟨[(["s", "sk"], .dir)], []⟩
    ⟨[(["t", "sk"], .dir), (["s", "sk"], .dir)], []⟩
    (by decide) rfl rfl
    ⟨"a", "d", ["s", "a.md"], ItemType.command⟩ ["t"] false false none
    ⟨[], []⟩).1

/-- C1, counterexample: a run of `install` that reaches the transfer phase
and whose single per-item result reports failure (a permission-denied copy)
still exits with code 0, contradicting the claim that any failed transfer
makes the command exit nonzero. -/
theorem cli_exit_code_counterexample :
    (installMain
      ⟨some "claude-code", ["a"], [], false, false, false, false, false,
        true, false⟩
      ⟨[], [], true, fun _ => true⟩
      [⟨"a", "d", ["repo", "commands", "a.md"], .command⟩] []
      ["home"]
      ⟨[(["repo", "commands", "a.md"], .file "X")],
       [["home", ".claude", "commands", "a.md"]]⟩).exitCode = 0 ∧
    ((installMain
      ⟨some "claude-code", ["a"], [], false, false, false, false, false,
        true, false⟩
      ⟨[], [], true, fun _ => true⟩
      [⟨"a", "d", ["repo", "commands", "a.md"], .command⟩] []
      ["home"]
      ⟨[(["repo", "commands", "a.md"], .file "X")],
       [["home", ".claude", "commands", "a.md"]]⟩).commandResults.any
        (fun r => !r.success)) = true := by
  constructor
  · rfl
  · rfl

/-- C1, amended: the exit code of `install` and `uninstall` does not
depend on the per-item transfer results at all — every run that completes
the transfer phase exits 0, even when results report failure; nonzero
exits arise only before the transfer phase (validation errors or an
escaping exception from target-directory creation). -/
theorem cli_exit_ignores_results
    (a : InstallArgs) (o : CliOracles) (ac ask : List ItemInfo)
    (home : FPath) (fs : Fs)
    (a2 : UninstallArgs) (o2 : CliOracles) (ic isk : List ItemInfo)
    (home2 : FPath) (fs2 : Fs) :
    ((installMain a o ac ask home fs).transferCompleted = true →
      (installMain a o ac ask home fs).exitCode = 0) ∧
    ((uninstallMain a2 o2 ic isk home2 fs2).transferCompleted = true →
      (uninstallMain a2 o2 ic isk home2 fs2).exitCode = 0) := by
  constructor
  · intro h
    unfold installMain at h ⊢
    cases hp : installPrelude a o ac ask home with
    | error code => simp [hp] at h
    | ok sel =>
      obtain ⟨cd, sd, cmds, sks, cb⟩ := sel
      simp only [hp] at h
      cases hi : install_items cmds sks cd sd a.force a.dry_run cb fs with
      | error e => simp [hi] at h
      | ok r =>
        obtain ⟨cr, sr, fs2⟩ := r
        simp [hi]
  · intro h
    unfold uninstallMain at h ⊢
    cases hp : uninstallPrelude a2 o2 ic isk home2 with
    | error code => simp [hp] at h
    | ok sel =>
      obtain ⟨cmds, sks⟩ := sel
      simp

/-- Witness for C1 (amended): the counterexample run completes its
transfer phase and indeed exits 0. -/
theorem cli_exit_ignores_results_witness :
    (installMain
      ⟨some "claude-code", ["a"], [], false, false, false, false, false,
        true, false⟩
      ⟨[], [], true, fun _ => true⟩
      [⟨"a", "d", ["repo", "commands", "a.md"], .command⟩] []
      ["home"]
      ⟨[(["repo", "commands", "a.md"], .file "X")],
       [["home", ".claude", "commands", "a.md"]]⟩).exitCode = 0 :=
  (cli_exit_ignores_results
    ⟨some "claude-code", ["a"], [], false, false, false, false, false,
      true, false⟩
    ⟨[], [], true, fun _ => true⟩
    [⟨"a", "d", ["repo", "commands", "a.md"], .command⟩] []
    ["home"]
    ⟨[(["repo", "commands", "a.md"], .file "X")],
     [["home", ".claude", "commands", "a.md"]]⟩
    ⟨some "claude-code", [], [], false, false, false, false, false, true⟩
    ⟨[], [], true, fun _ => true⟩ [] [] ["home"] ⟨[], []⟩).1 rfl

/-- C2, counterexample: a readable file whose frontmatter block is the
invalid YAML `[` (the oracle models `yaml.safe_load` raising) is NOT
excluded from discovery — it is returned with the filename-stem fallback
name, contradicting the claim that a metadata parse failure silently
excludes the file. -/
theorem discovery_parse_failure_counterexample :
    discover_commands yamlBracketOracle ["b", "commands"]
        [⟨"a.md", some "---\n[\n---\n"⟩]
      = [{ name := "a", description := "No description available",
           path := ["b", "commands", "a.md"], item_type := .command }] := by
  rfl

/-- C2, amended: an unreadable file is silently excluded, but a file whose
metadata block fails to parse as YAML is kept with empty metadata (the
filename-stem fallback name and default description); only a frontmatter
that parses to a truthy non-mapping makes the per-file attribute error
skip the file.  The same holds for skills, and `discover_commands` is
exactly the per-file processing over the sorted glob. -/
theorem discovery_best_effort (yamlO : YamlOracle) (cmdDir sdDir : FPath)
    (fname content block s : String) (e : SkillEntry)
    (listing : List CmdFile) :
    (processCmdFile yamlO cmdDir ⟨fname, none⟩ = none) ∧
    (extractFrontmatterBlock content = some block →
      yamlO block = .error () →
      processCmdFile yamlO cmdDir ⟨fname, some content⟩
        = some { name := mdStem fname,
                 description := "No description available",
                 path := cmdDir ++ [fname], item_type := .command }) ∧
    (extractFrontmatterBlock content = some block →
      yamlO block = .ok (.pystr s) → s ≠ "" →
      processCmdFile yamlO cmdDir ⟨fname, some content⟩ = none) ∧
    (e.isDir = true → e.hasSkillMd = true → e.skillMdContent = none →
      processSkillEntry yamlO sdDir e = none) ∧
    (e.isDir = true → e.hasSkillMd = true → e.skillMdContent = some content →
      extractFrontmatterBlock content = some block →
      yamlO block = .error () →
      processSkillEntry yamlO sdDir e
        = some { name := e.name,
                 description := "No description available",
                 path := sdDir ++ [e.name], item_type := .skill }) ∧
    (discover_commands yamlO cmdDir listing
      = (sortFiles (globMd listing)).filterMap (processCmdFile yamlO cmdDir)) := by
  refine ⟨rfl, ?_, ?_, ?_, ?_, rfl⟩
  · intro hb hy
    simp [processCmdFile, parse_frontmatter, hb, hy, pyGet]
  · intro hb hy hs
    simp [processCmdFile, parse_frontmatter, hb, hy, pyOrEmpty, pyTruthy,
      hs, pyGet]
  · intro h1 h2 h3
    simp [processSkillEntry, h1, h2, h3]
  · intro h1 h2 h3 hb hy
    simp [processSkillEntry, parse_frontmatter, h1, h2, h3, hb, hy, pyGet]

/-- Witness for C2 (amended) at the concrete invalid-YAML file. -/
theorem discovery_best_effort_witness :
    processCmdFile yamlBracketOracle ["b", "commands"]
        ⟨"a.md", some "---\n[\n---\n"⟩
      = some { name := mdStem "a.md",
               description := "No description available",
               path := ["b", "commands", "a.md"], item_type := .command } :=
  (discovery_best_effort yamlBracketOracle ["b", "commands"] ["b", "skills"]
    "a.md" "---\n[\n---\n" "[" "x" ⟨"s", true, true, none⟩ []).2.1
    (by rfl) (by rfl)

theorem string_data_append (a b : String) : (a ++ b).data = a.data ++ b.data := by
  cases a; cases b; rfl

theorem infix_joinLines (x : String) : ∀ L : List String, x ∈ L →
    x.data <:+: (joinLines L).data
  | [], h => absurd h (by simp)
  | [l], h => by
      have hx : x = l := by simpa using h
      subst hx
      exact List.infix_rfl
  | l :: l2 :: rest, h => by
      rcases List.mem_cons.mp h with rfl | h2
      · show x.data <:+: ((x ++ "\n") ++ joinLines (l2 :: rest)).data
        rw [string_data_append, string_data_append]
        exact ((x.data.prefix_append _).trans
          ((List.prefix_append _ _))).isInfix
      · have ih := infix_joinLines x (l2 :: rest) h2
        show x.data <:+: ((l ++ "\n") ++ joinLines (l2 :: rest)).data
        rw [string_data_append]
        exact ih.trans (List.suffix_append _ _).isInfix

/-- C8, counterexample: a command file whose frontmatter maps `name` to
the empty string is returned with an empty `name`, contradicting the
claim that every returned item has a non-empty name. -/
theorem discovery_empty_name_counterexample :
    discover_commands yamlEmptyNameOracle ["b", "commands"]
        [⟨"a.md", some "---\nname: \x27\x27\n---\n"⟩]
      = [{ name := "", description := "No description available",
           path := ["b", "commands", "a.md"], item_type := .command }] := by
  rfl

/-- C8, amended: discovery output is sorted by filename (commands) and by
directory name (skills), and each returned item's name is the frontmatter
`name` value when that key is present — which may be empty — and
otherwise the filename stem resp. directory name, which is non-empty (for
skills, whenever the directory entries have non-empty names, as `iterdir`
guarantees). -/
theorem discovery_sorted_with_name_rule (yamlO : YamlOracle)
    (cmdDir sdDir : FPath) (listing : List CmdFile)
    (slist : List SkillEntry) (hnz : ∀ e ∈ slist, e.name ≠ "") :
    List.Sorted (fun a b : String => a ≤ b)
      ((discover_commands yamlO cmdDir listing).map itemFileName) ∧
    List.Sorted (fun a b : String => a ≤ b)
      ((discover_skills yamlO sdDir slist).map itemFileName) ∧
    (∀ it ∈ discover_commands yamlO cmdDir listing, ∃ f ∈ listing,
        isMdName f.filename = true ∧
        it.path = cmdDir ++ [f.filename] ∧
        ∃ content kvs, f.content = some content ∧
          parse_frontmatter yamlO content = .pydict kvs ∧
          ((∃ kv, kvs.find? (fun e => e.1 == "name") = some kv ∧
              it.name = kv.2) ∨
           (kvs.find? (fun e => e.1 == "name") = none ∧
            it.name = mdStem f.filename ∧ it.name ≠ ""))) ∧
    (∀ it ∈ discover_skills yamlO sdDir slist, ∃ e ∈ slist,
        it.path = sdDir ++ [e.name] ∧
        ∃ content kvs, e.skillMdContent = some content ∧
          parse_frontmatter yamlO content = .pydict kvs ∧
          ((∃ kv, kvs.find? (fun e2 => e2.1 == "name") = some kv ∧
              it.name = kv.2) ∨
           (kvs.find? (fun e2 => e2.1 == "name") = none ∧
            it.name = e.name ∧ it.name ≠ ""))) := by
  refine ⟨?_, ?_, ?_, ?_⟩
  · have hs : List.Sorted (fun a b : String => a ≤ b)
        ((sortFiles (globMd listing)).map (fun f => f.filename)) :=
      List.Pairwise.map _ (fun a b hab => hab) (sortFiles_sorted (globMd listing))
    exact hs.sublist (filterMap_map_sublist (processCmdFile yamlO cmdDir)
      itemFileName (fun f => f.filename)
      (fun f it h => itemFileName_of_processCmdFile yamlO cmdDir f it h)
      (sortFiles (globMd listing)))
  · have hs : List.Sorted (fun a b : String => a ≤ b)
        ((sortSkills slist).map (fun e => e.name)) :=
      List.Pairwise.map _ (fun a b hab => hab) (sortSkills_sorted slist)
    exact hs.sublist (filterMap_map_sublist (processSkillEntry yamlO sdDir)
      itemFileName (fun e => e.name)
      (fun e it h => itemFileName_of_processSkillEntry yamlO sdDir e it h)
      (sortSkills slist))
  · intro it hit
    obtain ⟨f, hfmem, hpf⟩ := List.mem_filterMap.mp hit
    have hfg : f ∈ globMd listing :=
      (List.perm_insertionSort fileLe (globMd listing)).mem_iff.mp hfmem
    obtain ⟨hfl, hmd⟩ := List.mem_filter.mp hfg
    obtain ⟨hpath, content, kvs, hcon, hfm, hname⟩ :=
      processCmdFile_some yamlO cmdDir f it hpf
    refine ⟨f, hfl, hmd, hpath, content, kvs, hcon, hfm, ?_⟩
    rcases hname with hk | ⟨hnone, hstem⟩
    · exact .inl hk
    · exact .inr ⟨hnone, hstem, hstem ▸ mdStem_ne_empty f.filename hmd⟩
  · intro it hit
    obtain ⟨e, hemem, hpe⟩ := List.mem_filterMap.mp hit
    have heg : e ∈ slist :=
      (List.perm_insertionSort skillLe slist).mem_iff.mp hemem
    obtain ⟨hpath, content, kvs, hcon, hfm, hname⟩ :=
      processSkillEntry_some yamlO sdDir e it hpe
    refine ⟨e, heg, hpath, content, kvs, hcon, hfm, ?_⟩
    rcases hname with hk | ⟨hnone, hfall⟩
    · exact .inl hk
    · exact .inr ⟨hnone, hfall, hfall ▸ hnz e heg⟩

/-- Witness for C8 (amended) on a two-file listing and a one-skill
listing. -/
theorem discovery_sorted_with_name_rule_witness :
    List.Sorted (fun a b : String => a ≤ b)
      ((discover_commands yamlBracketOracle ["b", "commands"]
          [⟨"b.md", some "x"⟩, ⟨"a.md", some "y"⟩]).map itemFileName) :=
  (discovery_sorted_with_name_rule yamlBracketOracle ["b", "commands"]
    ["b", "skills"] [⟨"b.md", some "x"⟩, ⟨"a.md", some "y"⟩]
    [⟨"z", true, true, some "hello"⟩]
    (by intro e he; simp at he; subst he; decide)).1

set_option maxRecDepth 20000 in
/-- C9, counterexample: with the short (3 ≤ 500 characters) summary
`a&b`, the formatted message does not contain the original string — the
summary is HTML-escaped to `a&amp;b` on the way in — contradicting the
claim that the summary included in the message is the original string
when it is at most 500 characters long. -/
theorem telegram_summary_escaped_counterexample :
    ("a&b" : String).length ≤ 500 ∧
    ¬ (("a&b".data) <:+:
        (telegramMessage .success "a&b" [] ⟨"A", "p", "g", none⟩ "T").data) := by
  constructor
  · decide
  · decide

/-- C9, amended: the summary placed into the message is the original when
at most 500 characters and otherwise its first 497 characters plus an
ellipsis (total length exactly 500), but what appears in the formatted
message is its HTML-escaped form (whenever the message is within the
4000-character cap); and at most 5 todo bullet lines are included
regardless of how many were supplied. -/
theorem telegram_truncation (status : TgStatus) (summary : String)
    (todo : List String) (ctx : TgContext) (ts : String)
    (hlen : (joinLines (format_lines status (mainSummary summary)
        (mainTodos todo) ctx ts)).length ≤ 4000) :
    (summary.length ≤ 500 → mainSummary summary = summary) ∧
    (500 < summary.length →
      (mainSummary summary).length = 500 ∧
      mainSummary summary = String.mk (summary.data.take 497) ++ "...") ∧
    (pyHtmlEscape (mainSummary summary)).data <:+:
      (telegramMessage status summary todo ctx ts).data ∧
    (mainTodos todo).length ≤ 5 ∧
    (∃ pre post,
      format_lines status (mainSummary summary) (mainTodos todo) ctx ts
        = pre ++ ((((mainTodos todo).map pyHtmlEscape).take 5).map
            (fun t => "• " ++ t)) ++ post ∧
      ((((mainTodos todo).map pyHtmlEscape).take 5).map
          (fun t => "• " ++ t)).length ≤ 5) := by
  refine ⟨?_, ?_, ?_, ?_, ?_⟩
  · intro h
    rw [mainSummary, if_neg (by omega)]
  · intro h
    constructor
    · rw [mainSummary, if_pos (by omega)]
      show ((String.mk (summary.data.take 497) ++ "...").data).length = 500
      rw [string_data_append]
      simp [List.length_take]
      have : summary.length = summary.data.length := rfl
      omega
    · rw [mainSummary, if_pos (by omega)]
  · rw [telegramMessage, format_message, pyTruncate, if_pos hlen]
    apply infix_joinLines
    simp [format_lines]
  · rw [mainTodos]
    split
    · simp
    · omega
  · cases hemp : mainTodos todo with
    | nil =>
      refine ⟨format_lines status (mainSummary summary) [] ctx ts,
        [], ?_, by simp⟩
      simp
    | cons t0 trest =>
      refine ⟨([statusIcon status ++ " <b>" ++ statusTitle status ++ "</b>", "",
        "🤖 " ++ pyHtmlEscape ctx.agent,
        "📂 <code>" ++ pyHtmlEscape ctx.pwd ++ "</code>",
        "🌿 <code>" ++ pyHtmlEscape ctx.git_branch ++ "</code>"]
        ++ (match ctx.session_id with
            | some sid => ["🆔 <code>" ++ pyHtmlEscape sid ++ "</code>"]
            | none => [])
        ++ ["", tgSeparator, "", "<b>📋 Summary</b>",
            pyHtmlEscape (mainSummary summary), "", "<b>📝 Your TODOs</b>"]),
        ["", tgSeparator, "⏱️ " ++ ts], ?_,
        by simp [List.length_take]⟩
      simp [format_lines, List.append_assoc]

set_option maxRecDepth 20000 in
/-- Witness for C9 (amended) at a concrete short-summary invocation. -/
theorem telegram_truncation_witness :
    (pyHtmlEscape (mainSummary "a&b")).data <:+:
      (telegramMessage .success "a&b" [] ⟨"A", "p", "g", none⟩ "T").data :=
  (telegram_truncation .success "a&b" [] ⟨"A", "p", "g", none⟩ "T"
    (by decide)).2.2.1

end AwesomeCC
